import Mathlib

/-!
Verification development for the `PokerRoom` durable-object room of the
scrum-poker worker (`src/index.ts`).

The room state (`sessions`, `users`, `userList`, `revealed`, `deckId`,
`activeCustomDeck`) and its mutators are embedded shallowly:

* JavaScript objects keyed by user id become association lists
  `List (String × User)` (insertion order preserved, as for string-keyed
  JS objects); `this.users[id]` lookups become `List.lookup`.
* A WebSocket is identified by a `Nat` channel id; `Session` pairs a
  channel with a user id, as in the source.
* A JS value that may be absent, `null`/empty, or a non-empty string is
  modelled as `Option (Option String)`: `none` = field absent from the
  payload, `some none` = present but `null`/`undefined`, `some (some t)` =
  present with string `t` (truthy exactly when `t ≠ ""`).
* Send failures inside `broadcastState` are driven by an oracle
  `Nat → Nat → Bool` mapping (pass index, channel id) to "this send
  throws"; the recursive reconciliation loop is written with an explicit
  fuel argument (the live-session count bounds the number of passes).
-/

namespace ScrumPoker

/-- The CardData shape of `src/index.ts`: value, color, optional icon id. -/
structure CardData where
  value : String
  color : String
  iconId : Option String
deriving DecidableEq, Repr

/-- The Deck shape of `src/index.ts`: id, name, card list. -/
structure Deck where
  id : String
  name : String
  cards : List CardData
deriving DecidableEq, Repr

/-- The User shape of `src/index.ts`.
`colorId` is always a string after initialisation (`'default'` or a set value),
`avatar` may be `undefined` (`none`). -/
structure User where
  id : String
  name : String
  vote : Option CardData
  avatar : Option String
  colorId : String
  isSpectator : Bool
deriving DecidableEq, Repr

/-- A Session of `src/index.ts`: one open socket bound to a user id. -/
structure Session where
  channel : Nat
  userId : String
deriving DecidableEq, Repr

/-- The mutable fields of the `PokerRoom` class. -/
structure RoomState where
  sessions : List Session
  users : List (String × User)
  userList : List String
  revealed : Bool
  deckId : String
  activeCustomDeck : Option Deck
deriving DecidableEq, Repr

/-- The constructor's initial state: empty room, hidden votes, default deck. -/
def initialState : RoomState :=
  { sessions := [], users := [], userList := [], revealed := false,
    deckId := "fibonacci", activeCustomDeck := none }

/-- Default display name on first registration: `` `User ${userId.substring(0, 4)}` ``. -/
def defaultName (uid : String) : String := "User " ++ uid.take 4

/-- The registration part of `handleSession`: push the session; if the user id
is new, create the user with defaults and append it to `userList`. -/
def handleSession (s : RoomState) (ch : Nat) (uid : String) (isSpectator : Bool) :
    RoomState :=
  let s1 := { s with sessions := s.sessions ++ [⟨ch, uid⟩] }
  if (s.users.lookup uid).isSome then s1
  else
    { s1 with
      users := s1.users ++ [(uid,
        { id := uid, name := defaultName uid, vote := none, avatar := none,
          colorId := "default", isSpectator := isSpectator })]
      userList := s1.userList ++ [uid] }

/-- The host lookup `this.userList.find(id => this.users[id] && !this.users[id].isSpectator)`:
the implicit host is the first id in join order bound to a non-spectator user. -/
def resolveHost (s : RoomState) : Option String :=
  s.userList.find? fun id =>
    match s.users.lookup id with
    | some u => !u.isSpectator
    | none => false

/-- Replace the user stored under `uid` (models in-place mutation of the
object held in `this.users[uid]`). -/
def setUser (us : List (String × User)) (uid : String) (u : User) :
    List (String × User) :=
  us.map fun p => if p.1 = uid then (p.1, u) else p

/-- The vote-clearing loop `for (const u of Object.values(this.users)) u.vote = null`. -/
def clearVotes (us : List (String × User)) : List (String × User) :=
  us.map fun p => (p.1, { p.2 with vote := none })

/-- Inbound commands, the parsed `data` of the message handler's `switch`.
`other` is any unrecognized `type` (ignored by the switch). -/
inductive Msg where
  | vote (card : Option CardData)
  | reveal
  | reset
  | setProfile (name avatar colorId : Option (Option String))
  | setDeck (deckId : String)
  | setCustomDeck (deck : Option Deck)
  | other
deriving DecidableEq, Repr

/-- The `switch (data.type)` body of the message handler: returns the new
room state and whether `broadcastState` was invoked. -/
def applyMsg (s : RoomState) (uid : String) (m : Msg) : RoomState × Bool :=
  match s.users.lookup uid with
  | none => (s, false)
  | some user =>
    let isHost := resolveHost s = some uid
    match m with
    | .vote card =>
        if user.isSpectator then (s, false)
        else ({ s with users := setUser s.users uid { user with vote := card } }, true)
    | .reveal =>
        if isHost then ({ s with revealed := true }, true) else (s, false)
    | .reset =>
        if isHost then
          ({ s with revealed := false, users := clearVotes s.users }, true)
        else (s, false)
    | .setProfile n a c =>
        let u1 :=
          match n with
          | some (some t) => if t ≠ "" then { user with name := t } else user
          | _ => user
        let u2 :=
          match a with
          | none => u1
          | some v =>
            { u1 with avatar :=
                (match v with
                 | some t => if t ≠ "" then some t else none
                 | none => none) }
        let u3 :=
          match c with
          | none => u2
          | some v =>
            { u2 with colorId :=
                (match v with
                 | some t => if t ≠ "" then t else "default"
                 | none => "default") }
        ({ s with users := setUser s.users uid u3 }, true)
    | .setDeck d =>
        if isHost then
          ({ s with deckId := d, activeCustomDeck := none, revealed := false,
                    users := clearVotes s.users }, true)
        else (s, false)
    | .setCustomDeck dk =>
        if isHost then
          match dk with
          | some d =>
              if d.id ≠ "" ∧ d.name ≠ "" then
                ({ s with activeCustomDeck := some d, deckId := d.id,
                          revealed := false, users := clearVotes s.users }, true)
              else (s, false)
          | none => (s, false)
        else (s, false)
    | .other => (s, false)

/-- Messages delivered over a channel: the serialized state projection, a
pre-built raw string passed to `broadcastState(message)`, or the error
envelope `{error}` sent from the message handler's `catch` block. -/
inductive OutMsg where
  | stateMsg (users : List User) (revealed : Bool) (deckId : String)
      (activeCustomDeck : Option Deck)
  | raw (text : String)
  | errMsg (text : String)
deriving DecidableEq, Repr

/-- Placeholder for the `err.message` text of a `JSON.parse` failure. -/
def parseErrorText : String := "Unexpected token in JSON"

/-- The state object built by `broadcastState` when no raw message is given:
`users: this.userList.map(id => this.users[id]).filter(Boolean)` plus the
reveal flag, deck id and custom deck. -/
def stateProjection (s : RoomState) : OutMsg :=
  .stateMsg (s.userList.filterMap fun id => s.users.lookup id)
    s.revealed s.deckId s.activeCustomDeck

/-- Remove a user from both `this.users` and `this.userList`
(the `delete this.users[id]; this.userList = this.userList.filter(...)` pair). -/
def removeUser (s : RoomState) (uid : String) : RoomState :=
  { s with users := s.users.filter fun p => decide (p.1 ≠ uid)
           userList := s.userList.filter fun i => decide (i ≠ uid) }

/-- The dead-session reconciliation inside `broadcastState`: drop the failed
sessions, then for each failed session delete its user unless another live
session still carries that user id. -/
def pruneDead (s : RoomState) (dead : List Session) : RoomState :=
  let s1 := { s with sessions := s.sessions.filter fun x => decide (x ∉ dead) }
  dead.foldl
    (fun acc d =>
      if acc.sessions.any fun a => decide (a.userId = d.userId) then acc
      else removeUser acc d.userId)
    s1

/-- Result of one `broadcastState` call: the room state after all
reconciliation passes, the successful deliveries `(channel, message)` in send
order, and the index of the final pass (the one with zero send failures). -/
structure BroadcastResult where
  state : RoomState
  sent : List (Nat × OutMsg)
  exitPass : Nat
deriving DecidableEq, Repr

/-- The recursive body of `broadcastState`. `oracle pass ch = true` means the
`session.socket.send` on channel `ch` throws during pass `pass`. The `fuel`
argument makes the recursion structural; `broadcastState` supplies
`s.sessions.length + 1`, which is enough because every retry pass strictly
shrinks the session list. -/
def broadcastGo (oracle : Nat → Nat → Bool) (fuel : Nat) (pass : Nat)
    (s : RoomState) (msg : Option String) : BroadcastResult :=
  let m : OutMsg := match msg with | some t => .raw t | none => stateProjection s
  let dead := s.sessions.filter fun x => oracle pass x.channel
  let sent := (s.sessions.filter fun x => !oracle pass x.channel).map
    fun x => (x.channel, m)
  match fuel with
  | 0 => ⟨s, sent, pass⟩
  | fuel' + 1 =>
    if dead = [] then ⟨s, sent, pass⟩
    else
      let r := broadcastGo oracle fuel' (pass + 1) (pruneDead s dead) none
      ⟨r.state, sent ++ r.sent, r.exitPass⟩

/-- The full `broadcastState(message?)` call: serialize the projection (or use the raw
message), attempt delivery on every session, unregister the sessions whose
send threw, and re-broadcast the fresh state until a pass has no failure. -/
def broadcastState (oracle : Nat → Nat → Bool) (pass : Nat) (s : RoomState)
    (msg : Option String) : BroadcastResult :=
  broadcastGo oracle (s.sessions.length + 1) pass s msg

/-- The `message` event handler: `none` models a payload `JSON.parse` throws
on — the `catch` sends one `{error}` envelope to the originating channel and
touches nothing else. A parsed message runs the dispatcher `switch` and, when
the switch called for it, one `broadcastState()` pass chain. -/
def handleMessage (oracle : Nat → Nat → Bool) (s : RoomState) (ch : Nat)
    (uid : String) (m : Option Msg) : RoomState × List (Nat × OutMsg) :=
  match m with
  | none => (s, [(ch, .errMsg parseErrorText)])
  | some msg =>
    let r := applyMsg s uid msg
    if r.2 then
      let b := broadcastState oracle 0 r.1 none
      (b.state, b.sent)
    else (r.1, [])

/-- The `close` event handler for the socket on channel `ch` registered under
`uid`: drop that session; if `uid` has no remaining session, remove the user
from the map and the join order. -/
def disconnect (s : RoomState) (ch : Nat) (uid : String) : RoomState :=
  let s1 := { s with sessions := s.sessions.filter fun x => decide (x.channel ≠ ch) }
  if s1.sessions.any fun x => decide (x.userId = uid) then s1
  else removeUser s1 uid

/-- Room states reachable from the constructor state through the events the
runtime can deliver: a new connection (with a fresh channel id), an inbound
message on some channel, a socket close, and a broadcast pass in which some
sends fail. -/
inductive Reachable : RoomState → Prop where
  | init : Reachable initialState
  | connect {s : RoomState} (ch : Nat) (uid : String) (sp : Bool) :
      Reachable s → ch ∉ s.sessions.map Session.channel →
      Reachable (handleSession s ch uid sp)
  | message {s : RoomState} (oracle : Nat → Nat → Bool) (ch : Nat)
      (uid : String) (m : Option Msg) :
      Reachable s → Reachable (handleMessage oracle s ch uid m).1
  | close {s : RoomState} (x : Session) :
      Reachable s → x ∈ s.sessions → Reachable (disconnect s x.channel x.userId)
  | bfail {s : RoomState} (oracle : Nat → Nat → Bool) (pass : Nat)
      (msg : Option String) :
      Reachable s → Reachable (broadcastState oracle pass s msg).state

/-- The commands whose handler branches on `isHost`: `reveal`, `reset`,
`setDeck`, `setCustomDeck`. -/
def privileged : Msg → Bool
  | .reveal => true
  | .reset => true
  | .setDeck _ => true
  | .setCustomDeck _ => true
  | _ => false

/-- The join-order list mirrors the key sequence of the user map, without
duplicates. Every room state the runtime can produce satisfies this. -/
def Inv (s : RoomState) : Prop :=
  s.users.map Prod.fst = s.userList ∧ s.userList.Nodup

/-- Sessions hold pairwise distinct channels (distinct socket objects). -/
def ChanInv (s : RoomState) : Prop :=
  (s.sessions.map Session.channel).Nodup

/-- The custom-deck payload, when present, carries the active deck id. -/
def DeckInv (s : RoomState) : Prop :=
  ∀ d, s.activeCustomDeck = some d → s.deckId = d.id

/-- The stored record produced by a `setProfile n a c` edit of user `u`:
the three field updates of the handler, written as one record. -/
def profileResult (u : User) (n a c : Option (Option String)) : User :=
  { u with
    name := (match n with
      | some (some t) => if t ≠ "" then t else u.name
      | _ => u.name)
    avatar := (match a with
      | none => u.avatar
      | some v => (match v with
          | some t => if t ≠ "" then some t else none
          | none => none))
    colorId := (match c with
      | none => u.colorId
      | some v => (match v with
          | some t => if t ≠ "" then t else "default"
          | none => "default")) }

/-- Send oracle under which no delivery ever fails. -/
def neverFails : Nat → Nat → Bool := fun _ _ => false

/-- Send oracle under which every delivery fails. -/
def alwaysFails : Nat → Nat → Bool := fun _ _ => true

/-- Send oracle: only the send on channel 0 during pass 0 fails. -/
def failsChZeroPassZero : Nat → Nat → Bool := fun p ch => p == 0 && ch == 0

/-- Example room: "alice" joined as voter, then "bob99" as spectator. -/
def exRoom : RoomState :=
  handleSession (handleSession initialState 0 "alice" false) 1 "bob99" true

/-- Example room: "alice" connected twice (two tabs, one participant). -/
def exTwoTabs : RoomState :=
  handleSession (handleSession initialState 0 "alice" false) 1 "alice" false

/-- A participant with a customized profile and a cast vote. -/
def aliceU : User :=
  { id := "u1", name := "Alice", vote := some ⟨"5", "blue", none⟩,
    avatar := some "cat", colorId := "blue", isSpectator := false }

/-- A hand-built room with named, voting participants ("u1" with two live
sessions, "v2" with one), used to exercise profile edits, deck changes and
session removal. -/
def exProfiled : RoomState :=
  { sessions := [⟨0, "u1"⟩, ⟨1, "u1"⟩, ⟨2, "v2"⟩]
    users := [("u1", aliceU),
              ("v2", { id := "v2", name := "Bob", vote := some ⟨"8", "red", none⟩,
                       avatar := none, colorId := "default", isSpectator := false })]
    userList := ["u1", "v2"]
    revealed := true
    deckId := "fibonacci"
    activeCustomDeck := none }

/-! ### Association-list helper lemmas -/

theorem lookup_isSome_iff {l : List (String × User)} {a : String} :
    (l.lookup a).isSome ↔ a ∈ l.map Prod.fst := by
  induction l with
  | nil => simp [List.lookup]
  | cons p t ih =>
    obtain ⟨k, v⟩ := p
    by_cases hk : a = k
    · subst hk; simp [List.lookup_cons]
    · simp [List.lookup_cons, beq_false_of_ne hk, hk, ih]

theorem lookup_setUser_self {us : List (String × User)} {uid : String}
    {u w : User} (h : us.lookup uid = some w) :
    (setUser us uid u).lookup uid = some u := by
  induction us with
  | nil => simp [List.lookup] at h
  | cons p t ih =>
    obtain ⟨k, v⟩ := p
    by_cases hk : uid = k
    · subst hk
      simp only [setUser, List.map_cons]
      simp [List.lookup_cons]
    · rw [List.lookup_cons, beq_false_of_ne hk] at h
      simp only [setUser, List.map_cons] at ih ⊢
      rw [if_neg (by simpa using Ne.symm hk), List.lookup_cons, beq_false_of_ne hk]
      exact ih h

theorem map_fst_setUser {us : List (String × User)} {uid : String} {u : User} :
    (setUser us uid u).map Prod.fst = us.map Prod.fst := by
  induction us with
  | nil => rfl
  | cons p t ih =>
    obtain ⟨k, v⟩ := p
    by_cases hk : k = uid
    · subst hk
      simp only [setUser, List.map_cons] at ih ⊢
      simp [ih]
    · simp only [setUser, List.map_cons] at ih ⊢
      rw [if_neg (by simpa using hk)]
      simp [ih]

theorem map_fst_clearVotes {us : List (String × User)} :
    (clearVotes us).map Prod.fst = us.map Prod.fst := by
  induction us with
  | nil => rfl
  | cons p t ih =>
    simp only [clearVotes, List.map_cons] at ih ⊢
    simp [ih]

theorem lookup_filter_ne {us : List (String × User)} {uid : String} :
    (us.filter fun p => decide (p.1 ≠ uid)).lookup uid = none := by
  induction us with
  | nil => simp [List.lookup]
  | cons p t ih =>
    obtain ⟨k, v⟩ := p
    by_cases hk : k = uid
    · subst hk
      simpa [List.filter_cons] using ih
    · simp only [List.filter_cons]
      rw [if_pos (by simpa using hk)]
      rw [List.lookup_cons, beq_false_of_ne (Ne.symm hk)]
      exact ih

/-! ### The registry invariant: `userList` is exactly the key sequence of `users` -/

theorem inv_initial : Inv initialState := by
  constructor <;> simp [initialState]

theorem inv_handleSession {s : RoomState} (h : Inv s) (ch : Nat) (uid : String)
    (sp : Bool) : Inv (handleSession s ch uid sp) := by
  obtain ⟨h1, h2⟩ := h
  unfold handleSession
  by_cases hl : (s.users.lookup uid).isSome
  · simpa [hl] using ⟨h1, h2⟩
  · have hm : uid ∉ s.userList := by
      rw [← h1]; exact fun hmem => hl (lookup_isSome_iff.mpr hmem)
    simp only [hl, if_false]
    refine ⟨?_, ?_⟩
    · simp [h1]
    · simp [List.nodup_append, h2, hm]

theorem applyMsg_userList (s : RoomState) (uid : String) (m : Msg) :
    (applyMsg s uid m).1.userList = s.userList := by
  unfold applyMsg
  cases hl : s.users.lookup uid with
  | none => rfl
  | some user =>
    cases m <;> first | rfl | (dsimp only; repeat' split) <;> rfl

theorem applyMsg_map_fst (s : RoomState) (uid : String) (m : Msg) :
    (applyMsg s uid m).1.users.map Prod.fst = s.users.map Prod.fst := by
  unfold applyMsg
  cases hl : s.users.lookup uid with
  | none => rfl
  | some user =>
    cases m <;> (dsimp only; repeat' split) <;>
      simp [map_fst_setUser, map_fst_clearVotes]

theorem inv_applyMsg {s : RoomState} (h : Inv s) (uid : String) (m : Msg) :
    Inv (applyMsg s uid m).1 := by
  obtain ⟨h1, h2⟩ := h
  exact ⟨by rw [applyMsg_map_fst, applyMsg_userList, h1],
         by rw [applyMsg_userList]; exact h2⟩

theorem map_fst_filter_ne {us : List (String × User)} {uid : String} :
    (us.filter fun p => decide (p.1 ≠ uid)).map Prod.fst =
      (us.map Prod.fst).filter fun i => decide (i ≠ uid) := by
  induction us with
  | nil => rfl
  | cons p t ih =>
    obtain ⟨k, v⟩ := p
    by_cases hk : k = uid
    · subst hk; simpa [List.filter_cons] using ih
    · simp only [List.filter_cons, List.map_cons]
      rw [if_pos (by simpa using hk)]
      simp only [List.map_cons, ih]
      rw [if_pos (by simpa using hk)]

theorem inv_removeUser {s : RoomState} (h : Inv s) (uid : String) :
    Inv (removeUser s uid) := by
  obtain ⟨h1, h2⟩ := h
  refine ⟨?_, h2.filter _⟩
  simp only [removeUser, map_fst_filter_ne, h1]

/-- Preservation of a predicate through the fold inside `pruneDead`. -/
theorem foldl_preserve {α : Type} {P : RoomState → Prop}
    (f : RoomState → α → RoomState) (hf : ∀ t a, P t → P (f t a)) :
    ∀ (l : List α) (acc : RoomState), P acc → P (l.foldl f acc) := by
  intro l
  induction l with
  | nil => intro acc h; exact h
  | cons a t ih => intro acc h; exact ih _ (hf _ _ h)

theorem pruneDead_preserve {P : RoomState → Prop}
    (hsess : ∀ (t : RoomState) (g : Session → Bool),
      P t → P { t with sessions := t.sessions.filter g })
    (hrem : ∀ (t : RoomState) (uid : String), P t → P (removeUser t uid)) :
    ∀ (t : RoomState) (dead : List Session), P t → P (pruneDead t dead) := by
  intro t dead h
  unfold pruneDead
  refine foldl_preserve _ ?_ _ _ (hsess t _ h)
  intro acc d hacc
  by_cases hc : acc.sessions.any fun a => decide (a.userId = d.userId)
  · simpa [hc] using hacc
  · simpa [hc] using hrem _ _ hacc

theorem broadcastGo_preserve {P : RoomState → Prop}
    (hprune : ∀ (t : RoomState) (dead : List Session), P t → P (pruneDead t dead))
    (oracle : Nat → Nat → Bool) :
    ∀ (fuel pass : Nat) (s : RoomState) (msg : Option String),
      P s → P (broadcastGo oracle fuel pass s msg).state := by
  intro fuel
  induction fuel with
  | zero => intro pass s msg h; exact h
  | succ f ih =>
    intro pass s msg h
    unfold broadcastGo
    dsimp only
    split
    · exact h
    · exact ih _ _ _ (hprune _ _ h)

theorem handleMessage_state_preserve {P : RoomState → Prop}
    (happly : ∀ (t : RoomState) (uid : String) (m : Msg), P t → P (applyMsg t uid m).1)
    (hprune : ∀ (t : RoomState) (dead : List Session), P t → P (pruneDead t dead))
    (oracle : Nat → Nat → Bool) (s : RoomState) (ch : Nat) (uid : String)
    (m : Option Msg) (h : P s) : P (handleMessage oracle s ch uid m).1 := by
  unfold handleMessage
  cases m with
  | none => exact h
  | some msg =>
    dsimp only
    split
    · exact broadcastGo_preserve hprune oracle _ _ _ _ (happly _ _ _ h)
    · exact happly _ _ _ h

theorem inv_disconnect {s : RoomState} (h : Inv s) (ch : Nat) (uid : String) :
    Inv (disconnect s ch uid) := by
  unfold disconnect
  dsimp only
  split
  · exact h
  · exact inv_removeUser ⟨h.1, h.2⟩ uid

theorem inv_pruneDead : ∀ (t : RoomState) (dead : List Session),
    Inv t → Inv (pruneDead t dead) :=
  pruneDead_preserve (P := Inv)
    (fun _ _ ht' => ⟨ht'.1, ht'.2⟩)
    (fun _ u ht' => inv_removeUser ht' u)

/-- Every reachable room state satisfies the registry invariant. -/
theorem reachable_inv {s : RoomState} (h : Reachable s) : Inv s := by
  induction h with
  | init => exact inv_initial
  | connect ch uid sp _ _ ih => exact inv_handleSession ih ch uid sp
  | message oracle ch uid m _ ih =>
    exact handleMessage_state_preserve (P := Inv)
      (fun t u mm ht => inv_applyMsg ht u mm) inv_pruneDead oracle _ ch uid m ih
  | close x _ _ ih => exact inv_disconnect ih x.channel x.userId
  | bfail oracle pass msg _ ih =>
    exact broadcastGo_preserve (P := Inv) inv_pruneDead oracle _ _ _ _ ih

/-! ### Host resolution (C1) -/

theorem find?_some_split {α : Type} {p : α → Bool} {l : List α} {a : α}
    (h : l.find? p = some a) :
    ∃ l₁ l₂, l = l₁ ++ a :: l₂ ∧ (∀ x ∈ l₁, p x = false) ∧ p a = true := by
  induction l with
  | nil => simp at h
  | cons b t ih =>
    cases hb : p b with
    | true =>
      rw [List.find?_cons_of_pos _ hb] at h
      cases h
      exact ⟨[], t, rfl, by simp, hb⟩
    | false =>
      rw [List.find?_cons_of_neg _ (by simp [hb])] at h
      obtain ⟨l₁, l₂, rfl, h1, h2⟩ := ih h
      refine ⟨b :: l₁, l₂, rfl, ?_, h2⟩
      intro x hx
      rcases List.mem_cons.mp hx with rfl | hx
      · exact hb
      · exact h1 x hx

/-- A privileged command from anyone other than the resolved host leaves the
state unchanged and requests no broadcast. -/
theorem applyMsg_nonhost_noop {s : RoomState} {uid : String} {m : Msg}
    (hh : ¬ resolveHost s = some uid) (hm : privileged m = true) :
    applyMsg s uid m = (s, false) := by
  unfold applyMsg
  cases hl : s.users.lookup uid with
  | none => rfl
  | some user =>
    cases m with
    | reveal => dsimp only; rw [if_neg hh]
    | reset => dsimp only; rw [if_neg hh]
    | setDeck d => dsimp only; rw [if_neg hh]
    | setCustomDeck dk => dsimp only; rw [if_neg hh]
    | vote c => simp [privileged] at hm
    | setProfile n a c => simp [privileged] at hm
    | other => simp [privileged] at hm

theorem handleMessage_of_noop {oracle : Nat → Nat → Bool} {s : RoomState}
    {ch : Nat} {uid : String} {m : Msg} (h : applyMsg s uid m = (s, false)) :
    handleMessage oracle s ch uid (some m) = (s, []) := by
  unfold handleMessage
  dsimp only
  rw [h]
  simp

/-- C1. In every reachable room state: if a host resolves, it is the first
id in join order whose user has `isSpectator = false` (everything before it
in join order is a spectator); no host resolves exactly when every
participant is a spectator (vacuously, when the room is empty); and with no
host, every privileged command is a complete no-op. -/
theorem host_is_first_nonspectator {s : RoomState} (hr : Reachable s) :
    (∀ hid, resolveHost s = some hid →
      ∃ l₁ l₂ u, s.userList = l₁ ++ hid :: l₂ ∧
        s.users.lookup hid = some u ∧ u.isSpectator = false ∧
        ∀ id ∈ l₁, ∃ v, s.users.lookup id = some v ∧ v.isSpectator = true)
    ∧ (resolveHost s = none ↔
        ∀ id ∈ s.userList, ∃ v, s.users.lookup id = some v ∧ v.isSpectator = true)
    ∧ (resolveHost s = none →
        ∀ (oracle : Nat → Nat → Bool) (ch : Nat) (uid : String) (m : Msg),
          privileged m = true → handleMessage oracle s ch uid (some m) = (s, [])) := by
  obtain ⟨hkeys, _⟩ := reachable_inv hr
  have hmem : ∀ id ∈ s.userList, ∃ v, s.users.lookup id = some v := by
    intro id hid
    have : (s.users.lookup id).isSome :=
      lookup_isSome_iff.mpr (by rw [hkeys]; exact hid)
    exact Option.isSome_iff_exists.mp this
  refine ⟨?_, ?_, ?_⟩
  · intro hid hfind
    obtain ⟨l₁, l₂, heq, hpre, hp⟩ := find?_some_split hfind
    cases hl : s.users.lookup hid with
    | none => rw [hl] at hp; simp at hp
    | some u =>
      rw [hl] at hp
      refine ⟨l₁, l₂, u, heq, rfl, by simpa using hp, ?_⟩
      intro id hid1
      have hin : id ∈ s.userList := by rw [heq]; exact List.mem_append_left _ hid1
      obtain ⟨v, hv⟩ := hmem id hin
      refine ⟨v, hv, ?_⟩
      have := hpre id hid1
      rw [hv] at this
      simpa using this
  · constructor
    · intro hnone id hid
      obtain ⟨v, hv⟩ := hmem id hid
      refine ⟨v, hv, ?_⟩
      have := List.find?_eq_none.mp hnone id hid
      rw [hv] at this
      simpa using this
    · intro hall
      apply List.find?_eq_none.mpr
      intro id hid
      obtain ⟨v, hv, hsp⟩ := hall id hid
      rw [hv]
      simp [hsp]
  · intro hnone oracle ch uid m hm
    exact handleMessage_of_noop
      (applyMsg_nonhost_noop (by rw [hnone]; simp) hm)

/-! ### Witness for C1 -/

/-- C1 witness: the characterization instantiated at the concrete reachable
room `exRoom` (voter "alice" joined before spectator "bob99"). -/
theorem host_is_first_nonspectator_witness :
    Reachable exRoom ∧
    ((∀ hid, resolveHost exRoom = some hid →
      ∃ l₁ l₂ u, exRoom.userList = l₁ ++ hid :: l₂ ∧
        exRoom.users.lookup hid = some u ∧ u.isSpectator = false ∧
        ∀ id ∈ l₁, ∃ v, exRoom.users.lookup id = some v ∧ v.isSpectator = true)
    ∧ (resolveHost exRoom = none ↔
        ∀ id ∈ exRoom.userList, ∃ v, exRoom.users.lookup id = some v ∧
          v.isSpectator = true)
    ∧ (resolveHost exRoom = none →
        ∀ (oracle : Nat → Nat → Bool) (ch : Nat) (uid : String) (m : Msg),
          privileged m = true →
            handleMessage oracle exRoom ch uid (some m) = (exRoom, []))) :=
  have hreach : Reachable exRoom :=
    Reachable.connect 1 "bob99" true
      (Reachable.connect 0 "alice" false Reachable.init (by decide)) (by decide)
  ⟨hreach, host_is_first_nonspectator hreach⟩

/-! ### Malformed payloads (C7) -/

/-- C7. A payload that fails to parse yields exactly one error envelope,
delivered to the originating channel only; the state is untouched and no
state envelope goes out to anyone. -/
theorem malformed_payload_error_only (oracle : Nat → Nat → Bool)
    (s : RoomState) (ch : Nat) (uid : String) :
    (handleMessage oracle s ch uid none).1 = s ∧
    (handleMessage oracle s ch uid none).2 = [(ch, .errMsg parseErrorText)] ∧
    (∀ c o, (c, o) ∈ (handleMessage oracle s ch uid none).2 →
      c = ch ∧ o = OutMsg.errMsg parseErrorText) ∧
    ∀ c us rv dk cd,
      (c, OutMsg.stateMsg us rv dk cd) ∉ (handleMessage oracle s ch uid none).2 := by
  refine ⟨rfl, rfl, ?_, ?_⟩
  · intro c o hm
    simp [handleMessage] at hm
    exact ⟨hm.1, hm.2⟩
  · intro c us rv dk cd hm
    simp [handleMessage] at hm

/-! ### Reconnection keeps the stored participant record (C10) -/

/-- C10. Registering a new session under an already-present identity only
appends the session: the stored user record (spectator flag included) and
the join order are untouched, whatever flag the new connection supplies, so
host resolution is unchanged. -/
theorem reconnect_ignores_flag {s : RoomState} {uid : String} (ch : Nat)
    (sp : Bool) (h : (s.users.lookup uid).isSome) :
    handleSession s ch uid sp = { s with sessions := s.sessions ++ [⟨ch, uid⟩] } ∧
    (handleSession s ch uid sp).users = s.users ∧
    (handleSession s ch uid sp).userList = s.userList ∧
    resolveHost (handleSession s ch uid sp) = resolveHost s := by
  have hstep : handleSession s ch uid sp =
      { s with sessions := s.sessions ++ [⟨ch, uid⟩] } := by
    unfold handleSession
    rw [if_pos h]
  refine ⟨hstep, ?_, ?_, ?_⟩ <;> (rw [hstep]; try rfl)

/-- C10 witness: "alice" reconnects to `exRoom` on a new channel claiming to
be a spectator; her stored record and the host are unchanged. -/
theorem reconnect_ignores_flag_witness :
    handleSession exRoom 7 "alice" true =
      { exRoom with sessions := exRoom.sessions ++ [⟨7, "alice"⟩] } ∧
    (handleSession exRoom 7 "alice" true).users = exRoom.users ∧
    (handleSession exRoom 7 "alice" true).userList = exRoom.userList ∧
    resolveHost (handleSession exRoom 7 "alice" true) = resolveHost exRoom :=
  reconnect_ignores_flag 7 true (by decide)

/-! ### Authorization no-ops (C5) -/

theorem applyMsg_spectator_vote_noop {s : RoomState} {uid : String} {u : User}
    (hl : s.users.lookup uid = some u) (hs : u.isSpectator = true)
    (c : Option CardData) : applyMsg s uid (.vote c) = (s, false) := by
  unfold applyMsg
  rw [hl]
  dsimp only
  rw [if_pos hs]

/-- C5. A `vote` from a spectator, and any privileged command from a
non-host, leave the whole room state unchanged and send nothing (no error,
no broadcast) to any client. -/
theorem unauthorized_commands_noop (oracle : Nat → Nat → Bool) (s : RoomState)
    (ch : Nat) (uid : String) :
    (∀ u c, s.users.lookup uid = some u → u.isSpectator = true →
      handleMessage oracle s ch uid (some (.vote c)) = (s, [])) ∧
    (∀ m, privileged m = true → ¬ resolveHost s = some uid →
      handleMessage oracle s ch uid (some m) = (s, [])) := by
  constructor
  · intro u c hl hs
    exact handleMessage_of_noop (applyMsg_spectator_vote_noop hl hs c)
  · intro m hm hh
    exact handleMessage_of_noop (applyMsg_nonhost_noop hh hm)

/-- C5 witness: in `exRoom`, spectator "bob99" voting and non-host "bob99"
resetting are both complete no-ops. -/
theorem unauthorized_commands_noop_witness :
    handleMessage neverFails exRoom 1 "bob99"
      (some (.vote (some ⟨"5", "blue", none⟩))) = (exRoom, []) ∧
    handleMessage neverFails exRoom 1 "bob99" (some .reset) = (exRoom, []) :=
  ⟨(unauthorized_commands_noop neverFails exRoom 1 "bob99").1
      { id := "bob99", name := "User bob9", vote := none, avatar := none,
        colorId := "default", isSpectator := true }
      (some ⟨"5", "blue", none⟩) (by decide) (by decide),
   (unauthorized_commands_noop neverFails exRoom 1 "bob99").2 .reset (by decide) (by decide)⟩

/-! ### Deck changes reset the round (C2) -/

theorem resolveHost_isSome_lookup {s : RoomState} {uid : String}
    (h : resolveHost s = some uid) :
    ∃ u, s.users.lookup uid = some u ∧ u.isSpectator = false := by
  have hp := List.find?_some h
  cases hl : s.users.lookup uid with
  | none => rw [hl] at hp; simp at hp
  | some u => rw [hl] at hp; exact ⟨u, rfl, by simpa using hp⟩

theorem clearVotes_vote_none (us : List (String × User)) :
    ∀ p ∈ clearVotes us, p.2.vote = none := by
  intro p hp
  simp only [clearVotes, List.mem_map] at hp
  obtain ⟨q, _, rfl⟩ := hp
  rfl

theorem cleared_removeUser {t : RoomState} {uid : String}
    (h : t.revealed = false ∧ ∀ p ∈ t.users, p.2.vote = none) :
    (removeUser t uid).revealed = false ∧
      ∀ p ∈ (removeUser t uid).users, p.2.vote = none :=
  ⟨h.1, fun p hp => h.2 p (List.mem_of_mem_filter hp)⟩

theorem applyMsg_deck_change {s : RoomState} {uid : String} {m : Msg}
    (hhost : resolveHost s = some uid)
    (hm : (∃ d, m = Msg.setDeck d) ∨
      ∃ d, m = Msg.setCustomDeck (some d) ∧ d.id ≠ "" ∧ d.name ≠ "") :
    (applyMsg s uid m).1.revealed = false ∧
    ∀ p ∈ (applyMsg s uid m).1.users, p.2.vote = none := by
  obtain ⟨u, hl, _⟩ := resolveHost_isSome_lookup hhost
  rcases hm with ⟨d, rfl⟩ | ⟨d, rfl, hid, hname⟩
  · unfold applyMsg
    rw [hl]
    dsimp only
    rw [if_pos hhost]
    exact ⟨rfl, clearVotes_vote_none _⟩
  · unfold applyMsg
    rw [hl]
    dsimp only
    rw [if_pos hhost]
    rw [if_pos ⟨hid, hname⟩]
    exact ⟨rfl, clearVotes_vote_none _⟩

/-- C2. A deck change issued by the host — `setDeck`, or `setCustomDeck`
with a payload carrying non-empty id and name — leaves `revealed = false`
and every remaining participant's vote cleared, both right after the
dispatcher mutation and after the subsequent broadcast (whatever sends
fail there). -/
theorem deck_change_resets (oracle : Nat → Nat → Bool) (ch : Nat)
    {s : RoomState} {uid : String} {m : Msg}
    (hhost : resolveHost s = some uid)
    (hm : (∃ d, m = Msg.setDeck d) ∨
      ∃ d, m = Msg.setCustomDeck (some d) ∧ d.id ≠ "" ∧ d.name ≠ "") :
    ((applyMsg s uid m).1.revealed = false ∧
     ∀ p ∈ (applyMsg s uid m).1.users, p.2.vote = none) ∧
    ((handleMessage oracle s ch uid (some m)).1.revealed = false ∧
     ∀ p ∈ (handleMessage oracle s ch uid (some m)).1.users, p.2.vote = none) := by
  have base := applyMsg_deck_change hhost hm
  refine ⟨base, ?_⟩
  unfold handleMessage
  dsimp only
  split
  · exact broadcastGo_preserve
      (P := fun t => t.revealed = false ∧ ∀ p ∈ t.users, p.2.vote = none)
      (pruneDead_preserve (fun t g ht => ⟨ht.1, ht.2⟩)
        (fun t u ht => cleared_removeUser ht))
      oracle _ _ _ _ base
  · exact base

/-- C2 witness: host "u1" of `exProfiled` (revealed round, votes cast)
switches to the "tshirt" deck; the round is reset. -/
theorem deck_change_resets_witness :
    ((applyMsg exProfiled "u1" (.setDeck "tshirt")).1.revealed = false ∧
     ∀ p ∈ (applyMsg exProfiled "u1" (.setDeck "tshirt")).1.users, p.2.vote = none) ∧
    ((handleMessage neverFails exProfiled 0 "u1" (some (.setDeck "tshirt"))).1.revealed = false ∧
     ∀ p ∈ (handleMessage neverFails exProfiled 0 "u1" (some (.setDeck "tshirt"))).1.users,
       p.2.vote = none) :=
  deck_change_resets neverFails 0 (by decide) (Or.inl ⟨"tshirt", rfl⟩)

/-! ### Deck-id / custom-deck consistency (C6) -/

theorem deckInv_applyMsg {s : RoomState} {uid : String} {m : Msg}
    (h : DeckInv s) : DeckInv (applyMsg s uid m).1 := by
  unfold applyMsg
  cases hl : s.users.lookup uid with
  | none => exact h
  | some user =>
    cases m with
    | vote c => dsimp only; split <;> exact h
    | reveal => dsimp only; split <;> exact h
    | reset => dsimp only; split <;> exact h
    | setProfile n a c => exact h
    | setDeck d =>
      dsimp only
      split
      · intro d' hd; cases hd
      · exact h
    | setCustomDeck dk =>
      dsimp only
      split
      · cases dk with
        | none => exact h
        | some d =>
          dsimp only
          split
          · intro d' hd
            cases hd
            rfl
          · exact h
      · exact h
    | other => exact h

theorem deckInv_handleSession {s : RoomState} (h : DeckInv s) (ch : Nat)
    (uid : String) (sp : Bool) : DeckInv (handleSession s ch uid sp) := by
  unfold handleSession
  dsimp only
  split <;> exact h

theorem deckInv_pruneDead : ∀ (t : RoomState) (dead : List Session),
    DeckInv t → DeckInv (pruneDead t dead) :=
  pruneDead_preserve (P := DeckInv) (fun _ _ h => h) (fun _ _ h => h)

theorem deckInv_disconnect {s : RoomState} (h : DeckInv s) (ch : Nat)
    (uid : String) : DeckInv (disconnect s ch uid) := by
  unfold disconnect
  dsimp only
  split
  · exact h
  · exact h

theorem reachable_deckInv {s : RoomState} (h : Reachable s) : DeckInv s := by
  induction h with
  | init => intro d hd; cases hd
  | connect ch uid sp _ _ ih => exact deckInv_handleSession ih ch uid sp
  | message oracle ch uid m _ ih =>
    exact handleMessage_state_preserve (P := DeckInv)
      (fun t u mm ht => deckInv_applyMsg ht) deckInv_pruneDead oracle _ ch uid m ih
  | close x _ _ ih => exact deckInv_disconnect ih x.channel x.userId
  | bfail oracle pass msg _ ih =>
    exact broadcastGo_preserve (P := DeckInv) deckInv_pruneDead oracle _ _ _ _ ih

/-- C6. In every reachable state the custom-deck payload, when present,
carries the active deck id; a host `setDeck` installs the new id and clears
the payload, and an accepted host `setCustomDeck` installs payload and id
together. -/
theorem deck_and_custom_consistent {s : RoomState} (hr : Reachable s) :
    (∀ d, s.activeCustomDeck = some d → s.deckId = d.id) ∧
    (∀ uid d, resolveHost s = some uid →
      (applyMsg s uid (.setDeck d)).1.deckId = d ∧
      (applyMsg s uid (.setDeck d)).1.activeCustomDeck = none) ∧
    (∀ uid d, resolveHost s = some uid → d.id ≠ "" → d.name ≠ "" →
      (applyMsg s uid (.setCustomDeck (some d))).1.activeCustomDeck = some d ∧
      (applyMsg s uid (.setCustomDeck (some d))).1.deckId = d.id) := by
  refine ⟨reachable_deckInv hr, ?_, ?_⟩
  · intro uid d hhost
    obtain ⟨u, hl, _⟩ := resolveHost_isSome_lookup hhost
    unfold applyMsg
    rw [hl]
    dsimp only
    rw [if_pos hhost]
    exact ⟨rfl, rfl⟩
  · intro uid d hhost hid hname
    obtain ⟨u, hl, _⟩ := resolveHost_isSome_lookup hhost
    unfold applyMsg
    rw [hl]
    dsimp only
    rw [if_pos hhost]
    rw [if_pos ⟨hid, hname⟩]
    exact ⟨rfl, rfl⟩

/-- C6 witness: the consistency statement instantiated at the reachable
room `exRoom`. -/
theorem deck_and_custom_consistent_witness :
    (∀ d, exRoom.activeCustomDeck = some d → exRoom.deckId = d.id) ∧
    (∀ uid d, resolveHost exRoom = some uid →
      (applyMsg exRoom uid (.setDeck d)).1.deckId = d ∧
      (applyMsg exRoom uid (.setDeck d)).1.activeCustomDeck = none) ∧
    (∀ uid d, resolveHost exRoom = some uid → d.id ≠ "" → d.name ≠ "" →
      (applyMsg exRoom uid (.setCustomDeck (some d))).1.activeCustomDeck = some d ∧
      (applyMsg exRoom uid (.setCustomDeck (some d))).1.deckId = d.id) :=
  deck_and_custom_consistent
    (Reachable.connect 1 "bob99" true
      (Reachable.connect 0 "alice" false Reachable.init (by decide)) (by decide))

/-! ### Profile updates (C8) -/

/-- Flat form of the `setProfile` handler: name changes only on a present,
non-empty string; a present avatar is stored when non-empty and cleared to
`none` otherwise; a present colorId is stored when non-empty and reset to
`"default"` otherwise. -/
theorem setProfile_flat {s : RoomState} {uid : String} {u : User}
    (hl : s.users.lookup uid = some u) (n a c : Option (Option String)) :
    applyMsg s uid (.setProfile n a c) =
      ({ s with users := setUser s.users uid (profileResult u n a c) }, true) := by
  unfold applyMsg profileResult
  rw [hl]
  dsimp only
  rcases n with _ | ⟨_ | tn⟩ <;> rcases a with _ | ⟨_ | ta⟩ <;>
    rcases c with _ | ⟨_ | tc⟩ <;> dsimp only <;> split_ifs <;> rfl

/-- C8 counterexample: "u1" is stored with name "Alice"; a `setProfile`
carrying an explicit `null` name leaves the name "Alice" instead of
resetting it to the default `defaultName "u1" = "User u1"`. -/
theorem setProfile_null_name_not_reset :
    ((applyMsg exProfiled "u1" (.setProfile (some none) none none)).1.users.lookup
        "u1").map User.name = some "Alice" ∧
    ((applyMsg exProfiled "u1" (.setProfile (some (some "")) none none)).1.users.lookup
        "u1").map User.name = some "Alice" ∧
    "Alice" ≠ defaultName "u1" ∧ "Alice" ≠ "" := by
  refine ⟨rfl, rfl, ?_, ?_⟩ <;> decide

/-- C8 as amended. Absent `setProfile` fields leave the stored fields
unchanged; an avatar supplied as `null`/empty resets to its default
(`none`), a colorId supplied as `null`/empty resets to its default
(`"default"`), a non-empty supplied field is stored — but a name supplied
as `null`/empty is treated like an absent field and leaves the stored name
unchanged (it is not reset to the default name). Vote, id and spectator
flag are never touched. -/
theorem setProfile_semantics {s : RoomState} {uid : String} {u : User}
    (hl : s.users.lookup uid = some u) (n a c : Option (Option String)) :
    ∃ u', (applyMsg s uid (.setProfile n a c)).1.users.lookup uid = some u' ∧
      (applyMsg s uid (.setProfile n a c)).1 =
        { s with users := setUser s.users uid u' } ∧
      (n = none → u'.name = u.name) ∧
      (n = some none → u'.name = u.name) ∧
      (n = some (some "") → u'.name = u.name) ∧
      (∀ t, t ≠ "" → n = some (some t) → u'.name = t) ∧
      (a = none → u'.avatar = u.avatar) ∧
      (a = some none → u'.avatar = none) ∧
      (a = some (some "") → u'.avatar = none) ∧
      (∀ t, t ≠ "" → a = some (some t) → u'.avatar = some t) ∧
      (c = none → u'.colorId = u.colorId) ∧
      (c = some none → u'.colorId = "default") ∧
      (c = some (some "") → u'.colorId = "default") ∧
      (∀ t, t ≠ "" → c = some (some t) → u'.colorId = t) ∧
      u'.vote = u.vote ∧ u'.isSpectator = u.isSpectator ∧ u'.id = u.id := by
  rw [setProfile_flat hl]
  refine ⟨profileResult u n a c, lookup_setUser_self hl, rfl,
    ?_, ?_, ?_, ?_, ?_, ?_, ?_, ?_, ?_, ?_, ?_, ?_, rfl, rfl, rfl⟩
  · rintro rfl; rfl
  · rintro rfl; rfl
  · rintro rfl; simp [profileResult]
  · rintro t ht rfl; simp [profileResult, ht]
  · rintro rfl; rfl
  · rintro rfl; rfl
  · rintro rfl; simp [profileResult]
  · rintro t ht rfl; simp [profileResult, ht]
  · rintro rfl; rfl
  · rintro rfl; rfl
  · rintro rfl; simp [profileResult]
  · rintro t ht rfl; simp [profileResult, ht]

/-- C8 witness: "u1" sends name "Zed", explicit-null avatar, absent
colorId; name becomes "Zed", avatar resets to `none`, colorId stays. -/
theorem setProfile_semantics_witness :
    ∃ u', (applyMsg exProfiled "u1"
        (.setProfile (some (some "Zed")) (some none) none)).1.users.lookup
          "u1" = some u' ∧
      (applyMsg exProfiled "u1"
        (.setProfile (some (some "Zed")) (some none) none)).1 =
        { exProfiled with users := setUser exProfiled.users "u1" u' } ∧
      ((some (some "Zed") : Option (Option String)) = none → u'.name = aliceU.name) ∧
      ((some (some "Zed") : Option (Option String)) = some none → u'.name = aliceU.name) ∧
      ((some (some "Zed") : Option (Option String)) = some (some "") →
        u'.name = aliceU.name) ∧
      (∀ t, t ≠ "" → (some (some "Zed") : Option (Option String)) = some (some t) →
        u'.name = t) ∧
      ((some none : Option (Option String)) = none → u'.avatar = aliceU.avatar) ∧
      ((some none : Option (Option String)) = some none → u'.avatar = none) ∧
      ((some none : Option (Option String)) = some (some "") → u'.avatar = none) ∧
      (∀ t, t ≠ "" → (some none : Option (Option String)) = some (some t) →
        u'.avatar = some t) ∧
      ((none : Option (Option String)) = none → u'.colorId = aliceU.colorId) ∧
      ((none : Option (Option String)) = some none → u'.colorId = "default") ∧
      ((none : Option (Option String)) = some (some "") → u'.colorId = "default") ∧
      (∀ t, t ≠ "" → (none : Option (Option String)) = some (some t) → u'.colorId = t) ∧
      u'.vote = aliceU.vote ∧ u'.isSpectator = aliceU.isSpectator ∧ u'.id = aliceU.id :=
  setProfile_semantics
    (show exProfiled.users.lookup "u1" = some aliceU from by decide)
    (some (some "Zed")) (some none) none

/-! ### Broadcast reconciliation terminates (C3) -/

theorem foldl_prune_sessions (dead : List Session) :
    ∀ acc : RoomState,
      (dead.foldl
        (fun acc d =>
          if acc.sessions.any fun a => decide (a.userId = d.userId) then acc
          else removeUser acc d.userId)
        acc).sessions = acc.sessions := by
  induction dead with
  | nil => intro acc; rfl
  | cons d t ih =>
    intro acc
    rw [List.foldl_cons]
    by_cases hc : acc.sessions.any fun a => decide (a.userId = d.userId)
    · rw [if_pos hc, ih]
    · rw [if_neg hc, ih]
      rfl

theorem pruneDead_sessions (s : RoomState) (dead : List Session) :
    (pruneDead s dead).sessions = s.sessions.filter fun x => decide (x ∉ dead) := by
  unfold pruneDead
  exact foldl_prune_sessions dead _

/-- One non-empty failure pass strictly shrinks the session list. -/
theorem pruneDead_shrinks {s : RoomState} {p : Session → Bool}
    (h : s.sessions.filter p ≠ []) :
    (pruneDead s (s.sessions.filter p)).sessions.length < s.sessions.length := by
  rw [pruneDead_sessions]
  rw [List.length_filter_lt_length_iff_exists]
  obtain ⟨x, hx⟩ := List.exists_mem_of_ne_nil _ h
  have hx' := List.mem_filter.mp hx
  exact ⟨x, hx'.1, by simp [hx]⟩

theorem broadcastGo_exit (oracle : Nat → Nat → Bool) :
    ∀ (fuel pass : Nat) (s : RoomState) (msg : Option String),
      s.sessions.length < fuel →
      (broadcastGo oracle fuel pass s msg).exitPass ≤ pass + s.sessions.length ∧
      (broadcastGo oracle fuel pass s msg).state.sessions.filter
        (fun x => oracle (broadcastGo oracle fuel pass s msg).exitPass x.channel) = [] := by
  intro fuel
  induction fuel with
  | zero => intro pass s msg h; exact absurd h (Nat.not_lt_zero _)
  | succ f ih =>
    intro pass s msg h
    unfold broadcastGo
    dsimp only
    by_cases hdead : s.sessions.filter (fun x => oracle pass x.channel) = []
    · rw [if_pos hdead]
      exact ⟨Nat.le_add_right _ _, hdead⟩
    · rw [if_neg hdead]
      have hlt : (pruneDead s (s.sessions.filter fun x => oracle pass x.channel)).sessions.length
          < s.sessions.length := pruneDead_shrinks hdead
      have hfuel : (pruneDead s (s.sessions.filter fun x => oracle pass x.channel)).sessions.length < f :=
        Nat.lt_of_lt_of_le hlt (Nat.lt_succ_iff.mp h)
      obtain ⟨h1, h2⟩ := ih (pass + 1) _ none hfuel
      refine ⟨?_, h2⟩
      calc (broadcastGo oracle f (pass + 1) _ none).exitPass
          ≤ pass + 1 + (pruneDead s (s.sessions.filter fun x => oracle pass x.channel)).sessions.length := h1
        _ ≤ pass + s.sessions.length := by omega

/-- C3. The reconciliation loop of `broadcastState` terminates: every pass
that sees a failed send strictly shrinks the live session list, the number
of passes is bounded by the starting session count, and the pass the loop
exits on has zero failures. -/
theorem broadcast_reconciliation_terminates (oracle : Nat → Nat → Bool)
    (pass : Nat) (s : RoomState) (msg : Option String) :
    (∀ (t : RoomState) (p : Nat),
      t.sessions.filter (fun x => oracle p x.channel) ≠ [] →
      (pruneDead t (t.sessions.filter fun x => oracle p x.channel)).sessions.length
        < t.sessions.length) ∧
    (broadcastState oracle pass s msg).exitPass ≤ pass + s.sessions.length ∧
    (broadcastState oracle pass s msg).state.sessions.filter
      (fun x => oracle (broadcastState oracle pass s msg).exitPass x.channel) = [] := by
  refine ⟨fun t p ht => pruneDead_shrinks ht, ?_, ?_⟩
  · exact (broadcastGo_exit oracle _ pass s msg (Nat.lt_succ_self _)).1
  · exact (broadcastGo_exit oracle _ pass s msg (Nat.lt_succ_self _)).2

/-- C3 witness: the termination statement at `exProfiled` under an oracle
that fails every send; the shrink hypothesis discharged at the first pass. -/
theorem broadcast_reconciliation_terminates_witness :
    (pruneDead exProfiled
      (exProfiled.sessions.filter fun x => alwaysFails 0 x.channel)).sessions.length
        < exProfiled.sessions.length ∧
    (broadcastState alwaysFails 0 exProfiled none).exitPass ≤
      0 + exProfiled.sessions.length ∧
    (broadcastState alwaysFails 0 exProfiled none).state.sessions.filter
      (fun x => alwaysFails (broadcastState alwaysFails 0 exProfiled none).exitPass
        x.channel) = [] :=
  have h := broadcast_reconciliation_terminates alwaysFails 0 exProfiled none
  ⟨h.1 exProfiled 0 (by decide), h.2.1, h.2.2⟩

/-! ### Raw-message broadcasts and the reconciliation loop (C9) -/

/-- C9 counterexample: `broadcastState` invoked with a pre-built raw message
on `exRoom` while the send on channel 0 fails. The failed session IS
unregistered ("alice" disappears from the session list) and a re-broadcast
IS triggered (channel 1 receives the raw notice and then a fresh state
envelope), contradicting the claimed bypass. -/
theorem raw_broadcast_not_bypassed :
    exRoom.sessions = [⟨0, "alice"⟩, ⟨1, "bob99"⟩] ∧
    (broadcastState failsChZeroPassZero 0 exRoom (some "notice")).state.sessions =
      [⟨1, "bob99"⟩] ∧
    (broadcastState failsChZeroPassZero 0 exRoom (some "notice")).state.userList =
      ["bob99"] ∧
    (broadcastState failsChZeroPassZero 0 exRoom (some "notice")).sent =
      [(1, .raw "notice"),
       (1, .stateMsg [{ id := "bob99", name := "User bob9", vote := none,
                        avatar := none, colorId := "default", isSpectator := true }]
          false "fibonacci" none)] :=
  ⟨rfl, rfl, rfl, rfl⟩

theorem broadcastGo_msg_indep (oracle : Nat → Nat → Bool) (fuel pass : Nat)
    (s : RoomState) (m1 m2 : Option String) :
    (broadcastGo oracle fuel pass s m1).state = (broadcastGo oracle fuel pass s m2).state ∧
    (broadcastGo oracle fuel pass s m1).exitPass =
      (broadcastGo oracle fuel pass s m2).exitPass := by
  cases fuel with
  | zero => exact ⟨rfl, rfl⟩
  | succ f =>
    unfold broadcastGo
    dsimp only
    by_cases hdead : s.sessions.filter (fun x => oracle pass x.channel) = []
    · rw [if_pos hdead, if_pos hdead]
      exact ⟨rfl, rfl⟩
    · rw [if_neg hdead, if_neg hdead]
      exact ⟨rfl, rfl⟩

/-- C9 as amended. A raw-message broadcast goes through the same
failure-reconciliation loop as a state broadcast: it ends in the same room
state and at the same pass (re-broadcast passes always carry the fresh
state projection, never the raw message). Only when no send fails does it
stop after one pass, delivering the raw message to every live channel and
leaving the state untouched. -/
theorem raw_broadcast_reconciles (oracle : Nat → Nat → Bool) (pass : Nat)
    (s : RoomState) (t : String) :
    ((broadcastState oracle pass s (some t)).state =
        (broadcastState oracle pass s none).state ∧
     (broadcastState oracle pass s (some t)).exitPass =
        (broadcastState oracle pass s none).exitPass) ∧
    (s.sessions.filter (fun x => oracle pass x.channel) = [] →
      broadcastState oracle pass s (some t) =
        ⟨s, s.sessions.map fun x => (x.channel, .raw t), pass⟩) := by
  constructor
  · exact broadcastGo_msg_indep oracle _ pass s (some t) none
  · intro hdead
    unfold broadcastState broadcastGo
    dsimp only
    rw [if_pos hdead]
    have hfull : (s.sessions.filter fun x => !oracle pass x.channel) = s.sessions := by
      rw [List.filter_eq_self]
      intro a ha
      by_contra hcon
      have : a ∈ s.sessions.filter fun x => oracle pass x.channel :=
        List.mem_filter.mpr ⟨ha, by simpa using hcon⟩
      rw [hdead] at this
      exact absurd this (List.not_mem_nil a)
    rw [hfull]

/-- C9 amended-claim witness: with no failing sends, the raw notice reaches
both sessions of `exRoom` and the state is untouched. -/
theorem raw_broadcast_reconciles_witness :
    ((broadcastState neverFails 0 exRoom (some "notice")).state =
        (broadcastState neverFails 0 exRoom none).state ∧
     (broadcastState neverFails 0 exRoom (some "notice")).exitPass =
        (broadcastState neverFails 0 exRoom none).exitPass) ∧
    broadcastState neverFails 0 exRoom (some "notice") =
      ⟨exRoom, exRoom.sessions.map fun x => (x.channel, .raw "notice"), 0⟩ :=
  have h := raw_broadcast_reconciles neverFails 0 exRoom "notice"
  ⟨h.1, h.2 (by decide)⟩

/-! ### Session removal and participant lifetime (C4) -/

theorem handleSession_sessions (s : RoomState) (ch : Nat) (uid : String)
    (sp : Bool) :
    (handleSession s ch uid sp).sessions = s.sessions ++ [⟨ch, uid⟩] := by
  unfold handleSession
  dsimp only
  split <;> rfl

theorem applyMsg_sessions (s : RoomState) (uid : String) (m : Msg) :
    (applyMsg s uid m).1.sessions = s.sessions := by
  unfold applyMsg
  cases hl : s.users.lookup uid with
  | none => rfl
  | some user =>
    cases m <;> first | rfl | (dsimp only; repeat' split) <;> rfl

theorem chanInv_pruneDead : ∀ (t : RoomState) (dead : List Session),
    ChanInv t → ChanInv (pruneDead t dead) := by
  intro t dead h
  have hs := pruneDead_sessions t dead
  unfold ChanInv at h ⊢
  rw [hs]
  exact ((List.filter_sublist _).map Session.channel).nodup h

theorem chanInv_applyMsg {s : RoomState} (h : ChanInv s) (uid : String)
    (m : Msg) : ChanInv (applyMsg s uid m).1 := by
  unfold ChanInv at h ⊢
  rw [applyMsg_sessions]
  exact h

theorem chanInv_disconnect {s : RoomState} (h : ChanInv s) (ch : Nat)
    (uid : String) : ChanInv (disconnect s ch uid) := by
  have hfil : ((s.sessions.filter fun x => decide (x.channel ≠ ch)).map
      Session.channel).Nodup :=
    ((List.filter_sublist _).map Session.channel).nodup h
  unfold disconnect
  dsimp only
  split
  · exact hfil
  · exact hfil

/-- Every reachable state has pairwise distinct session channels. -/
theorem reachable_chanInv {s : RoomState} (h : Reachable s) : ChanInv s := by
  induction h with
  | init => simp [ChanInv, initialState]
  | connect ch uid sp _ hfresh ih =>
    unfold ChanInv at ih ⊢
    rw [handleSession_sessions]
    simp only [List.map_append, List.map_cons, List.map_nil]
    simp [List.nodup_append, ih, hfresh]
  | message oracle ch uid m _ ih =>
    exact handleMessage_state_preserve (P := ChanInv)
      (fun t u mm ht => chanInv_applyMsg ht u mm) chanInv_pruneDead oracle _ ch uid m ih
  | close x _ _ ih => exact chanInv_disconnect ih x.channel x.userId
  | bfail oracle pass msg _ ih =>
    exact broadcastGo_preserve (P := ChanInv) chanInv_pruneDead oracle _ _ _ _ ih

theorem two_mem_le_length {α : Type} [DecidableEq α] {l : List α} {a b : α}
    (ha : a ∈ l) (hb : b ∈ l) (hab : a ≠ b) : 2 ≤ l.length := by
  have hb' : b ∈ l.erase a := (List.mem_erase_of_ne (Ne.symm hab)).mpr hb
  have h1 : 1 ≤ (l.erase a).length := List.length_pos.mpr (List.ne_nil_of_mem hb')
  have h2 : (l.erase a).length = l.length - 1 := List.length_erase_of_mem ha
  have h3 : 1 ≤ l.length := List.length_pos.mpr (List.ne_nil_of_mem ha)
  omega

theorem removeUser_not_mem_userList (t : RoomState) (uid : String) :
    uid ∉ (removeUser t uid).userList := by
  intro h
  have := (List.mem_filter.mp h).2
  simp at this

/-- Among two or more sessions of the same user, one survives the removal
of session `x` (it lives on a different channel). -/
theorem exists_other_channel {s : RoomState} {x : Session} (hch : ChanInv s)
    (htwo : 2 ≤ (s.sessions.filter fun y => decide (y.userId = x.userId)).length) :
    ∃ y ∈ s.sessions, y.userId = x.userId ∧ y.channel ≠ x.channel := by
  have hnodup : ((s.sessions.filter fun y => decide (y.userId = x.userId)).map
      Session.channel).Nodup :=
    ((List.filter_sublist _).map Session.channel).nodup hch
  cases huidf : s.sessions.filter (fun y => decide (y.userId = x.userId)) with
  | nil => rw [huidf] at htwo; simp at htwo
  | cons a tl =>
    cases tl with
    | nil => rw [huidf] at htwo; simp at htwo
    | cons b rest =>
      have hmem : ∀ z ∈ s.sessions.filter (fun y => decide (y.userId = x.userId)),
          z ∈ s.sessions ∧ z.userId = x.userId := by
        intro z hz
        have h' := List.mem_filter.mp hz
        exact ⟨h'.1, by simpa using h'.2⟩
      have ha := hmem a (by rw [huidf]; simp)
      have hb := hmem b (by rw [huidf]; simp)
      rw [huidf] at hnodup
      simp only [List.map_cons, List.nodup_cons] at hnodup
      have hab : a.channel ≠ b.channel := by
        intro hcc
        exact hnodup.1 (by rw [hcc]; exact List.mem_cons_self _ _)
      by_cases hax : a.channel = x.channel
      · exact ⟨b, hb.1, hb.2, by rw [← hax]; exact Ne.symm hab⟩
      · exact ⟨a, ha.1, ha.2, hax⟩

/-- C4. In a reachable room, removing a live session `x` — by the socket's
close handler or by the dead-session pruning of a failed broadcast send —
removes the owning participant from both the user map and the join order
when `x` was that participant's only session, and leaves the user map and
the join order entirely unchanged when the participant holds at least one
other session. -/
theorem session_removal {s : RoomState} {x : Session} (hr : Reachable s)
    (hx : x ∈ s.sessions) :
    ((s.sessions.filter fun y => decide (y.userId = x.userId)).length = 1 →
      ((disconnect s x.channel x.userId).users.lookup x.userId = none ∧
       x.userId ∉ (disconnect s x.channel x.userId).userList) ∧
      ((pruneDead s [x]).users.lookup x.userId = none ∧
       x.userId ∉ (pruneDead s [x]).userList)) ∧
    (2 ≤ (s.sessions.filter fun y => decide (y.userId = x.userId)).length →
      ((disconnect s x.channel x.userId).users = s.users ∧
       (disconnect s x.channel x.userId).userList = s.userList) ∧
      ((pruneDead s [x]).users = s.users ∧
       (pruneDead s [x]).userList = s.userList)) := by
  have hch : ChanInv s := reachable_chanInv hr
  have hxuidf : x ∈ s.sessions.filter fun y => decide (y.userId = x.userId) :=
    List.mem_filter.mpr ⟨hx, by simp⟩
  constructor
  · intro hone
    have hnoother : ∀ y ∈ s.sessions, y.userId = x.userId → y = x := by
      intro y hy hyuid
      by_contra hne
      have hyf : y ∈ s.sessions.filter fun z => decide (z.userId = x.userId) :=
        List.mem_filter.mpr ⟨hy, by simp [hyuid]⟩
      have := two_mem_le_length hxuidf hyf (fun hxy => hne hxy.symm)
      omega
    constructor
    · have hany : ¬ ((s.sessions.filter fun y => decide (y.channel ≠ x.channel)).any
          fun y => decide (y.userId = x.userId)) = true := by
        rw [List.any_eq_true]
        rintro ⟨y, hy, hyuid⟩
        obtain ⟨hys, hych⟩ := List.mem_filter.mp hy
        have hyx : y = x := hnoother y hys (by simpa using hyuid)
        subst hyx
        simp at hych
      unfold disconnect
      dsimp only
      rw [if_neg hany]
      exact ⟨lookup_filter_ne, removeUser_not_mem_userList _ _⟩
    · have hany : ¬ (((s.sessions.filter fun y => decide (y ∉ [x])).any
          fun a => decide (a.userId = x.userId)) = true) := by
        rw [List.any_eq_true]
        rintro ⟨y, hy, hyuid⟩
        obtain ⟨hys, hyne⟩ := List.mem_filter.mp hy
        have hyx : y = x := hnoother y hys (by simpa using hyuid)
        subst hyx
        simp at hyne
      unfold pruneDead
      dsimp only
      rw [List.foldl_cons, List.foldl_nil]
      rw [if_neg hany]
      exact ⟨lookup_filter_ne, removeUser_not_mem_userList _ _⟩
  · intro htwo
    obtain ⟨y, hys, hyuid, hych⟩ := exists_other_channel hch htwo
    constructor
    · have hany : ((s.sessions.filter fun z => decide (z.channel ≠ x.channel)).any
          fun z => decide (z.userId = x.userId)) = true := by
        rw [List.any_eq_true]
        exact ⟨y, List.mem_filter.mpr ⟨hys, by simp [hych]⟩, by simp [hyuid]⟩
      unfold disconnect
      dsimp only
      rw [if_pos hany]
      exact ⟨rfl, rfl⟩
    · have hyx : y ≠ x := fun h => hych (congrArg Session.channel h)
      have hany : (((s.sessions.filter fun z => decide (z ∉ [x])).any
          fun a => decide (a.userId = x.userId)) = true) := by
        rw [List.any_eq_true]
        exact ⟨y, List.mem_filter.mpr ⟨hys, by simp [hyx]⟩, by simp [hyuid]⟩
      unfold pruneDead
      dsimp only
      rw [List.foldl_cons, List.foldl_nil]
      rw [if_pos hany]
      exact ⟨rfl, rfl⟩

/-- C4 witness: in `exRoom`, "alice" has exactly one session (channel 0) —
removing it evicts her from map and join order; in `exTwoTabs`, "alice"
holds channels 0 and 1 — removing channel 1 leaves her record and the join
order untouched, by either removal mechanism. -/
theorem session_removal_witness :
    (((disconnect exRoom 0 "alice").users.lookup "alice" = none ∧
      "alice" ∉ (disconnect exRoom 0 "alice").userList) ∧
     ((pruneDead exRoom [⟨0, "alice"⟩]).users.lookup "alice" = none ∧
      "alice" ∉ (pruneDead exRoom [⟨0, "alice"⟩]).userList)) ∧
    (((disconnect exTwoTabs 1 "alice").users = exTwoTabs.users ∧
      (disconnect exTwoTabs 1 "alice").userList = exTwoTabs.userList) ∧
     ((pruneDead exTwoTabs [⟨1, "alice"⟩]).users = exTwoTabs.users ∧
      (pruneDead exTwoTabs [⟨1, "alice"⟩]).userList = exTwoTabs.userList)) :=
  have hr1 : Reachable exRoom :=
    Reachable.connect 1 "bob99" true
      (Reachable.connect 0 "alice" false Reachable.init (by decide)) (by decide)
  have hr2 : Reachable exTwoTabs :=
    Reachable.connect 1 "alice" false
      (Reachable.connect 0 "alice" false Reachable.init (by decide)) (by decide)
  ⟨(session_removal (x := ⟨0, "alice"⟩) hr1 (by decide)).1 (by decide),
   (session_removal (x := ⟨1, "alice"⟩) hr2 (by decide)).2 (by decide)⟩

end ScrumPoker
